import Mathlib

/-!
Shallow embedding of the marketplace backend (Express/Mongoose REST API):
product lifecycle routes (`src/backend/routes/products.js`), auth routes
(`src/backend/routes/auth.js`) and the cart routes (`src/unnamed/part_000`),
over the Mongoose schemas (`src/unnamed/part_001` for products,
`src/backend/models/User.js` for users).

Requests are modelled as pure functions from the store (a list of documents)
and the request data to the new store and a JSON-style response.  Mongo
`findOne`/`findById` is `List.find?`; `findOneAndUpdate` walks the list and
rewrites the first document matching the whole filter.  `bcrypt.compare` is an
abstract boolean parameter.  JS string truthiness (`!s?.trim()`) becomes
`(s.trim = "")` on an `Option String`.
-/

namespace Marketplace

/-- `status` enum of the product schema (`src/unnamed/part_001`). -/
inductive Status where
  | pending
  | approved
  | rejected
  | sold
deriving DecidableEq, Repr

/-- `shippingAddress` subdocument of the product schema: five optional
string fields. -/
structure Address where
  street : Option String := none
  city : Option String := none
  state : Option String := none
  zipCode : Option String := none
  country : Option String := none
deriving DecidableEq, Repr

/-- A product document (`src/unnamed/part_001`).  `id` stands for Mongo
`_id`; `seller`/`buyer` are user ids; `createdAt` and `soldAt` are
timestamps modelled as naturals. -/
structure Product where
  id : Nat
  name : String
  price : Rat
  images : List String
  category : String
  size : String
  color : String
  location : String
  contactNumber : String
  description : String
  status : Status
  isActive : Bool
  seller : Nat
  buyer : Option Nat := none
  soldAt : Option Nat := none
  shippingAddress : Option Address := none
  createdAt : Nat
deriving DecidableEq, Repr

/-- The fixed category enum checked by the create and update handlers
(`products.js` lines 86 and 378) and declared in the schema. -/
def validCategories : List String :=
  ["shoes", "clothes", "accessories", "electronics", "other"]

/-- Request body of product create/update: every field is an optional string
or, for the price, an already-parsed optional number (`none` covers a
missing field and a `parseFloat` NaN alike). -/
structure ProductBody where
  name : Option String := none
  price : Option Rat := none
  description : Option String := none
  category : Option String := none
  size : Option String := none
  color : Option String := none
  location : Option String := none
  contactNumber : Option String := none
deriving DecidableEq, Repr

/-- JS `String.prototype.trim`: strip leading and trailing whitespace
(structurally recursive so that concrete instances evaluate). -/
def jsTrim (s : String) : String :=
  ⟨((s.data.dropWhile Char.isWhitespace).reverse.dropWhile
      Char.isWhitespace).reverse⟩

/-- `!x?.trim()`: the field is missing or trims to the empty string. -/
def blankOpt : Option String → Bool
  | none => true
  | some s => jsTrim s = ""

/-- `x?.trim() || d`: trim when present, else the default. -/
def trimOr (d : String) : Option String → String
  | none => d
  | some s => if jsTrim s = "" then d else jsTrim s

/-- `!price || isNaN(price) || parseFloat(price) <= 0` (create handler line
71, update handler line 363). -/
def invalidPrice : Option Rat → Bool
  | none => true
  | some q => q ≤ 0

/-- `category && !validCategories.includes(category)` (lines 87 and 379):
an absent or empty (JS-falsy) category passes, a supplied one must be in
the enum. -/
def invalidCategory : Option String → Bool
  | none => false
  | some c => ¬ (c = "" ∨ c ∈ validCategories)

/-- Outcome of a request, as the handler's HTTP status plus message; `ok`
carries the returned product when the route returns one. -/
inductive Resp where
  | ok (p : Product)
  | okList (ps : List Product)
  | err (code : Nat) (msg : String)
deriving DecidableEq, Repr

/-- POST `/products` (create handler, `products.js` lines 46-160): validate
name, price, contact number, category and the uploaded images; on success
persist a new product whose status is the schema default `pending` and
whose `isActive` is the schema default `true`.  `files` are the uploaded
image paths, `uid` the authenticated seller, `now`/`newId` the timestamp
and fresh id. -/
def createProduct (db : List Product) (uid : Nat) (body : ProductBody)
    (files : List String) (now newId : Nat) : List Product × Resp :=
  if blankOpt body.name then
    (db, .err 400 "Product name is required")
  else if invalidPrice body.price then
    (db, .err 400 "Please enter a valid price")
  else if blankOpt body.contactNumber then
    (db, .err 400 "Contact number is required")
  else if invalidCategory body.category then
    (db, .err 400 "Invalid category")
  else if files.isEmpty then
    (db, .err 400 "At least one image is required")
  else
    let p : Product :=
      { id := newId
        name := jsTrim (body.name.getD "")
        price := body.price.getD 0
        description := trimOr "" body.description
        category := trimOr "other" body.category
        size := trimOr "" body.size
        color := trimOr "" body.color
        location := trimOr "" body.location
        contactNumber := jsTrim (body.contactNumber.getD "")
        images := files
        status := .pending
        isActive := true
        seller := uid
        createdAt := now }
    (db ++ [p], .ok p)

/-- Filter of GET `/products/public` (lines 172-176): `status: 'approved'`,
`isActive: true`, `soldAt: \x7b $exists: false \x7d`. -/
def publicMatch (p : Product) : Bool :=
  p.status = .approved ∧ p.isActive ∧ p.soldAt = none

/-- Filter of the authenticated GET `/products` (lines 203-206):
`status: 'approved'`, `isActive: true` — no `soldAt` clause. -/
def authMatch (p : Product) : Bool :=
  p.status = .approved ∧ p.isActive

/-- `.sort(\x7b createdAt: -1 \x7d)`: newest first. -/
def newestFirst (ps : List Product) : List Product :=
  ps.insertionSort (fun a b => b.createdAt ≤ a.createdAt)

/-- GET `/products/public` (lines 163-192). -/
def publicListing (db : List Product) : List Product :=
  newestFirst (db.filter publicMatch)

/-- Authenticated GET `/products` (lines 195-230). -/
def authListing (db : List Product) : List Product :=
  newestFirst (db.filter authMatch)

/-- `Product.findById` is Mongo `findOne` on `_id`. -/
def findById (db : List Product) (pid : Nat) : Option Product :=
  db.find? (fun p => p.id = pid)

/-- GET `/products/:id` (lines 505-529): look the product up by id and
return it as-is — the route mounts no auth middleware and applies no
status or `isActive` filter. -/
def getProductById (db : List Product) (pid : Nat) : Resp :=
  match findById db pid with
  | none => .err 404 "Product not found"
  | some p => .ok p

/-- PUT `/products/:id/status` (admin moderation, lines 256-294): the body
status must be `approved` or `rejected`; the handler then overwrites the
product status whatever its current value is. -/
def setStatus (p : Product) (s : Status) : Product × Resp :=
  if s = .approved ∨ s = .rejected then
    let q := { p with status := s }
    (q, .ok q)
  else
    (p, .err 400 "Invalid status")

/-- PUT `/products/:id/toggle-active` (lines 297-328): the seller or an
admin flips `isActive`. -/
def toggleActive (p : Product) (uid : Nat) (isAdmin : Bool) :
    Product × Resp :=
  if p.seller ≠ uid ∧ ¬ isAdmin then
    (p, .err 403 "Not authorized to modify this product")
  else
    let q := { p with isActive := ¬ p.isActive }
    (q, .ok q)

/-- PUT `/products/:id` (update handler, lines 331-411): seller-or-admin
check, the same field validations as create, then overwrite exactly the
eight editable fields. -/
def updateProduct (p : Product) (uid : Nat) (isAdmin : Bool)
    (body : ProductBody) : Product × Resp :=
  if p.seller ≠ uid ∧ ¬ isAdmin then
    (p, .err 403 "Not authorized to modify this product")
  else if blankOpt body.name then
    (p, .err 400 "Product name is required")
  else if invalidPrice body.price then
    (p, .err 400 "Please enter a valid price")
  else if blankOpt body.contactNumber then
    (p, .err 400 "Contact number is required")
  else if invalidCategory body.category then
    (p, .err 400 "Invalid category")
  else
    let q := { p with
      name := jsTrim (body.name.getD "")
      price := body.price.getD 0
      description := trimOr "" body.description
      category := trimOr "other" body.category
      size := trimOr "" body.size
      color := trimOr "" body.color
      location := trimOr "" body.location
      contactNumber := jsTrim (body.contactNumber.getD "") }
    (q, .ok q)

/-- `paymentInfo` body of checkout; JS checks each field for truthiness so
an empty string counts as missing. -/
structure PaymentInfo where
  cardNumber : String
  expiryDate : String
  cvv : String
deriving DecidableEq, Repr

/-- `!paymentInfo || !paymentInfo.cardNumber || !paymentInfo.expiryDate ||
!paymentInfo.cvv` (checkout handler line 561), negated. -/
def validPayment : Option PaymentInfo → Bool
  | none => false
  | some i => i.cardNumber ≠ "" ∧ i.expiryDate ≠ "" ∧ i.cvv ≠ ""

/-- The `$set` document of the checkout update (lines 576-582). -/
def sellUpdate (p : Product) (uid : Nat) (ship : Option Address)
    (now : Nat) : Product :=
  { p with
    status := .sold
    buyer := some uid
    soldAt := some now
    shippingAddress := ship
    isActive := false }

/-- `Product.findOneAndUpdate` with filter `\x7b _id, status: 'approved',
isActive: true \x7d` (lines 569-585): rewrite the first document matching
the whole filter and return it (`new: true`), or return `none` leaving the
store unchanged. -/
def findOneAndUpdateSell (db : List Product) (pid uid : Nat)
    (ship : Option Address) (now : Nat) : Option Product × List Product :=
  match db with
  | [] => (none, [])
  | p :: rest =>
    if p.id = pid ∧ p.status = .approved ∧ p.isActive then
      let q := sellUpdate p uid ship now
      (some q, q :: rest)
    else
      let (r, rest') := findOneAndUpdateSell rest pid uid ship now
      (r, p :: rest')

/-- The response strings of the two availability failures of checkout
(lines 549 and 555/590). -/
def notAvailableMsg : String :=
  "This product is no longer available. It may have been purchased by another user."

def notPurchasableMsg : String :=
  "This product is not available for purchase"

/-- POST `/products/checkout` (lines 532-607): find the product, pre-check
availability and payment info, then perform the single conditional update;
a `none` from the update is reported with the not-available message. -/
def checkout (db : List Product) (pid uid : Nat) (ship : Option Address)
    (pay : Option PaymentInfo) (now : Nat) : List Product × Resp :=
  match findById db pid with
  | none => (db, .err 404 "Product not found")
  | some p =>
    if p.status = .sold ∨ ¬ p.isActive then
      (db, .err 400 notAvailableMsg)
    else if p.status ≠ .approved then
      (db, .err 400 notPurchasableMsg)
    else if ¬ validPayment pay then
      (db, .err 400 "Invalid payment information")
    else
      match findOneAndUpdateSell db pid uid ship now with
      | (none, _) => (db, .err 400 notAvailableMsg)
      | (some q, db') => (db', .ok q)

/-! ### Cart (`src/unnamed/part_000`) -/

/-- A `\x7b product, quantity \x7d` line item of a cart. -/
structure CartItem where
  product : Nat
  quantity : Nat
deriving DecidableEq, Repr

/-- Modelled from the spec: the Cart schema (`models/Cart.js`, required by
the cart routes but absent from the sources) must give `quantity` a schema
default, since the add handler pushes `\x7b product: productId \x7d` with no
quantity; the spec says the add operation "inserts with quantity 1". -/
def newCartItem (pid : Nat) : CartItem :=
  { product := pid, quantity := 1 }

/-- `existingItem.quantity += 1`: Mongoose mutates the item `find` returned,
i.e. the first line item for this product. -/
def incFirst (pid : Nat) : List CartItem → List CartItem
  | [] => []
  | it :: rest =>
    if it.product = pid then { it with quantity := it.quantity + 1 } :: rest
    else it :: incFirst pid rest

/-- POST `/cart/add` core (`part_000` lines 24-57), on the cart's item
list: increment the quantity of the existing line item for this product,
or push a fresh one. -/
def addToCart (items : List CartItem) (pid : Nat) : List CartItem :=
  match items.find? (fun it => it.product = pid) with
  | some _ => incFirst pid items
  | none => items ++ [newCartItem pid]

/-! ### Auth (`src/backend/routes/auth.js`, `src/backend/models/User.js`) -/

/-- A user document.  `password` holds the bcrypt hash the pre-save hook
stored. -/
structure User where
  id : Nat
  name : String
  email : String
  password : String
  isAdmin : Bool
deriving DecidableEq, Repr

/-- `User.findOne(\x7b email \x7d)`. -/
def findUserByEmail (db : List User) (email : String) : Option User :=
  db.find? (fun u => u.email = email)

/-- An auth route response: on success the routes return a token and the
user payload, abstracted here to the user id. -/
inductive AuthResp where
  | ok (uid : Nat)
  | err (code : Nat) (msg : String)
deriving DecidableEq, Repr

/-- POST `/auth/login` (`auth.js` lines 12-61).  `cmp entered stored`
abstracts `bcrypt.compare` via `user.comparePassword`. -/
def login (db : List User) (cmp : String → String → Bool)
    (email pw : String) : AuthResp :=
  match findUserByEmail db email with
  | none => .err 400 "Invalid credentials"
  | some u =>
    if ¬ cmp pw u.password then .err 400 "Invalid credentials"
    else .ok u.id

/-- POST `/auth/register` (`auth.js` lines 121-171).  `hash` abstracts the
bcrypt pre-save hook of the user schema. -/
def register (db : List User) (hash : String → String)
    (name email pw : String) (newId : Nat) : List User × AuthResp :=
  match findUserByEmail db email with
  | some _ => (db, .err 400 "User already exists")
  | none =>
    let u : User :=
      { id := newId, name := name, email := email
        password := hash pw, isAdmin := false }
    (db ++ [u], .ok u.id)

/-! ### Single-product transition system

The operations that can touch one product after creation, each applied
through the corresponding route handler above.  Creation itself is the
initial state: `createProduct` persists the product with status `pending`.
-/

/-- One request that targets the product. -/
inductive Op where
  | adminSetStatus (s : Status)
  | toggle (uid : Nat) (isAdmin : Bool)
  | updateFields (uid : Nat) (isAdmin : Bool) (body : ProductBody)
  | buy (uid : Nat) (ship : Option Address) (pay : Option PaymentInfo)
      (now : Nat)

/-- Effect of one request on the product, via the handlers. -/
def stepOp (p : Product) (op : Op) : Product :=
  match op with
  | .adminSetStatus s => (setStatus p s).1
  | .toggle uid a => (toggleActive p uid a).1
  | .updateFields uid a body => (updateProduct p uid a body).1
  | .buy uid ship pay now =>
    match (checkout [p] p.id uid ship pay now).1 with
    | q :: _ => q
    | [] => p

/-- Did this request complete a purchase of the product? -/
def sellHappened (p : Product) (op : Op) : Bool :=
  match op with
  | .buy uid ship pay now =>
    match (checkout [p] p.id uid ship pay now).2 with
    | .ok _ => true
    | _ => false
  | _ => false

/-- Run a sequence of requests. -/
def runOps (p : Product) (t : List Op) : Product :=
  t.foldl stepOp p

/-- How many of the requests in the sequence completed a purchase. -/
def countSells (p : Product) : List Op → Nat
  | [] => 0
  | op :: t => (if sellHappened p op then 1 else 0) + countSells (stepOp p op) t

def isAdminSet : Op → Bool
  | .adminSetStatus _ => true
  | _ => false

/-- No admin status update in the trace is applied while the product is
sold. -/
def noAdminResell (p : Product) : List Op → Bool
  | [] => true
  | op :: t =>
    (¬ (p.status = .sold ∧ isAdminSet op)) ∧ noAdminResell (stepOp p op) t

/-! ### Two concurrent checkout attempts

Each attempt runs the checkout handler as two atomic steps against the
shared product: the pre-checks (a pure read) and the conditional
`findOneAndUpdate`.  A scheduler interleaves them arbitrarily. -/

/-- The request data of one checkout attempt. -/
structure Attempt where
  uid : Nat
  ship : Option Address
  pay : Option PaymentInfo
  now : Nat

/-- Outcome of a finished attempt: the success response or the error
response's code and message. -/
inductive CkOutcome where
  | success
  | errResp (code : Nat) (msg : String)
deriving DecidableEq, Repr

/-- Control state of one attempt: before the pre-checks, between the
pre-checks and the conditional update, or finished. -/
inductive PState where
  | start
  | passed
  | finished (r : CkOutcome)
deriving DecidableEq, Repr

/-- One atomic step of an attempt, against the shared product: `start`
performs the pre-checks of the handler (lines 546-566), `passed` performs
the conditional update (lines 569-592). -/
def procStep (shared : Product) (a : Attempt) : PState → Product × PState
  | .start =>
    if shared.status = .sold ∨ ¬ shared.isActive then
      (shared, .finished (.errResp 400 notAvailableMsg))
    else if shared.status ≠ .approved then
      (shared, .finished (.errResp 400 notPurchasableMsg))
    else if ¬ validPayment a.pay then
      (shared, .finished (.errResp 400 "Invalid payment information"))
    else (shared, .passed)
  | .passed =>
    if shared.status = .approved ∧ shared.isActive then
      (sellUpdate shared a.uid a.ship a.now, .finished .success)
    else (shared, .finished (.errResp 400 notAvailableMsg))
  | .finished r => (shared, .finished r)

/-- The shared product with the control states of the two attempts. -/
structure Sys where
  shared : Product
  pa : PState
  pb : PState
deriving DecidableEq, Repr

/-- Let attempt A (`true`) or attempt B (`false`) take its next atomic
step. -/
def schedStep (a b : Attempt) (s : Sys) (who : Bool) : Sys :=
  if who then
    let (sh, st) := procStep s.shared a s.pa
    { s with shared := sh, pa := st }
  else
    let (sh, st) := procStep s.shared b s.pb
    { s with shared := sh, pb := st }

/-- Run the two attempts under an arbitrary interleaving. -/
def runSched (a b : Attempt) (s : Sys) (sched : List Bool) : Sys :=
  sched.foldl (schedStep a b) s

/-- How many of the two attempts have succeeded. -/
def succCount (s : Sys) : Nat :=
  (if s.pa = .finished .success then 1 else 0) +
    (if s.pb = .finished .success then 1 else 0)

/-- The attempt is still running or has received the not-available error. -/
def liveOrNA (st : PState) : Prop :=
  st = .start ∨ st = .passed ∨
    st = .finished (.errResp 400 notAvailableMsg)

/-- Verification invariant for two interleaved checkout attempts with
complete payment info, started on an available product: while the product
is approved and active neither attempt has finished; once it is not, it is
sold and inactive, exactly one attempt has succeeded, and the other is
still running or has received the not-available error. -/
def SysInv (s : Sys) : Prop :=
  ((s.shared.status = .approved ∧ s.shared.isActive = true) ∧
    (s.pa = .start ∨ s.pa = .passed) ∧
    (s.pb = .start ∨ s.pb = .passed)) ∨
  (s.shared.status = .sold ∧ s.shared.isActive = false ∧
    ((s.pa = .finished .success ∧ liveOrNA s.pb) ∨
     (s.pb = .finished .success ∧ liveOrNA s.pa)))

/-! ### Concrete fixtures used by witnesses -/

/-- A sample approved, active, unsold product. -/
def sampleProduct : Product :=
  { id := 1, name := "boots", price := 5, images := ["/uploads/a.png"],
    category := "shoes", size := "", color := "", location := "",
    contactNumber := "0300", description := "", status := .approved,
    isActive := true, seller := 7, createdAt := 10 }

/-- A sample complete payment body. -/
def samplePay : Option PaymentInfo :=
  some { cardNumber := "4242", expiryDate := "12/26", cvv := "123" }

/-- A sample sold product. -/
def sampleSold : Product :=
  { sampleProduct with
    id := 2
    status := .sold
    isActive := false
    soldAt := some 99
    buyer := some 9
    createdAt := 20 }

/-- A sample create request body. -/
def sampleBody : ProductBody :=
  { name := some "boots", price := some 5,
    contactNumber := some "0300", category := some "shoes" }

/-- The product `createProduct` persists for `sampleBody` (checked below by
evaluation): the schema defaults give it status `pending` and the active
flag. -/
def createdSample : Product :=
  { id := 1, name := "boots", price := 5, images := ["/uploads/a.png"],
    category := "shoes", size := "", color := "", location := "",
    contactNumber := "0300", description := "", status := .pending,
    isActive := true, seller := 7, createdAt := 10 }

/-- Approve, sell, re-approve by an admin, re-activate: the admin reset
trace behind the double-sell scenario. -/
def resellTrace : List Op :=
  [.adminSetStatus .approved, .buy 9 none samplePay 99,
   .adminSetStatus .approved, .toggle 7 true]

/-- `resellTrace` followed by a second purchase. -/
def doubleSellTrace : List Op :=
  resellTrace ++ [.buy 11 none samplePay 120]

/-- A sample registered user. -/
def sampleUser : User :=
  { id := 3, name := "Ada", email := "ada@example.com",
    password := "h1", isAdmin := false }

/-- A sample update request body. -/
def updBody : ProductBody :=
  { sampleBody with
    name := some "new boots"
    price := some 6 }

/-! ## Theorems -/

/-- `List.find?` over a product list decomposes the list at the first hit. -/
theorem findById_split (db : List Product) (pid : Nat) (p : Product)
    (hfind : findById db pid = some p) :
    p.id = pid ∧ ∃ l1 l2, db = l1 ++ p :: l2 ∧ ∀ q ∈ l1, q.id ≠ pid := by
  induction db with
  | nil => simp [findById] at hfind
  | cons hd tl ih =>
    by_cases hid : hd.id = pid
    · have hhd : hd = p := by
        have h1 : findById (hd :: tl) pid = some hd := by
          simp [findById, List.find?_cons_of_pos, hid]
        rw [h1] at hfind
        exact Option.some.inj hfind
      subst hhd
      exact ⟨hid, [], tl, rfl, by simp⟩
    · have h1 : findById (hd :: tl) pid = findById tl pid := by
        simp [findById, List.find?_cons_of_neg, hid]
      rw [h1] at hfind
      obtain ⟨hp, l1, l2, hdb, hl1⟩ := ih hfind
      refine ⟨hp, hd :: l1, l2, by simp [hdb], ?_⟩
      intro q hq
      rcases List.mem_cons.mp hq with h | h
      · subst h; exact hid
      · exact hl1 q h

/-- The conditional update rewrites the first document matching the whole
filter. -/
theorem findOneAndUpdateSell_append (l1 l2 : List Product)
    (pid uid : Nat) (ship : Option Address) (now : Nat) (p : Product)
    (hl1 : ∀ q ∈ l1, q.id ≠ pid) (hp : p.id = pid)
    (hs : p.status = .approved) (ha : p.isActive = true) :
    findOneAndUpdateSell (l1 ++ p :: l2) pid uid ship now =
      (some (sellUpdate p uid ship now),
        l1 ++ sellUpdate p uid ship now :: l2) := by
  induction l1 with
  | nil =>
    simp only [List.nil_append, findOneAndUpdateSell]
    rw [if_pos ⟨hp, hs, by simp [ha]⟩]
  | cons hd tl ih =>
    have hhd : hd.id ≠ pid := hl1 hd (by simp)
    have htl : ∀ q ∈ tl, q.id ≠ pid := fun q hq => hl1 q (by simp [hq])
    have ihh := ih htl
    simp only [List.cons_append, findOneAndUpdateSell]
    rw [if_neg (by simp [hhd])]
    simp [ihh]

/-- When the product the pre-checks saw is approved and active, the
conditional update hits exactly that product. -/
theorem findOneAndUpdateSell_of_find (db : List Product) (pid uid : Nat)
    (ship : Option Address) (now : Nat) (p : Product)
    (hfind : findById db pid = some p)
    (hs : p.status = .approved) (ha : p.isActive = true) :
    ∃ l1 l2, db = l1 ++ p :: l2 ∧ (∀ q ∈ l1, q.id ≠ pid) ∧
      findOneAndUpdateSell db pid uid ship now =
        (some (sellUpdate p uid ship now),
          l1 ++ sellUpdate p uid ship now :: l2) := by
  obtain ⟨hp, l1, l2, hdb, hl1⟩ := findById_split db pid p hfind
  refine ⟨l1, l2, hdb, hl1, ?_⟩
  subst hdb
  exact findOneAndUpdateSell_append l1 l2 pid uid ship now p hl1 hp hs ha

/-- C1: for a checkout request on an existing product with complete payment
info, the operation succeeds iff the product is approved and active at the
moment of the conditional update; on success the single update sets status
to sold, records the buyer and the sold timestamp, stores the shipping
address and clears the active flag, touching no other document; on failure
the store is unchanged and the response is a 400 not-available error. -/
theorem checkout_conditional_update (db : List Product) (pid uid : Nat)
    (ship : Option Address) (pay : Option PaymentInfo) (now : Nat)
    (p : Product) (hfind : findById db pid = some p)
    (hpay : validPayment pay = true) :
    ((∃ q, (checkout db pid uid ship pay now).2 = Resp.ok q) ↔
       (p.status = .approved ∧ p.isActive = true)) ∧
    (p.status = .approved → p.isActive = true →
       ∃ l1 l2, db = l1 ++ p :: l2 ∧ (∀ q ∈ l1, q.id ≠ pid) ∧
         checkout db pid uid ship pay now =
           (l1 ++ sellUpdate p uid ship now :: l2,
             Resp.ok (sellUpdate p uid ship now)) ∧
         (sellUpdate p uid ship now).status = .sold ∧
         (sellUpdate p uid ship now).buyer = some uid ∧
         (sellUpdate p uid ship now).soldAt = some now ∧
         (sellUpdate p uid ship now).shippingAddress = ship ∧
         (sellUpdate p uid ship now).isActive = false) ∧
    (¬ (p.status = .approved ∧ p.isActive = true) →
       (checkout db pid uid ship pay now).1 = db ∧
       ((checkout db pid uid ship pay now).2 = Resp.err 400 notAvailableMsg ∨
        (checkout db pid uid ship pay now).2 =
          Resp.err 400 notPurchasableMsg)) := by
  by_cases hok : p.status = .approved ∧ p.isActive = true
  · obtain ⟨hs, ha⟩ := hok
    obtain ⟨l1, l2, hdb, hl1, hupd⟩ :=
      findOneAndUpdateSell_of_find db pid uid ship now p hfind hs ha
    have hck : checkout db pid uid ship pay now =
        (l1 ++ sellUpdate p uid ship now :: l2,
          Resp.ok (sellUpdate p uid ship now)) := by
      simp [checkout, hfind, hs, ha, hpay, hupd]
    refine ⟨?_, ?_, ?_⟩
    · constructor
      · intro _; exact ⟨hs, ha⟩
      · intro _; exact ⟨sellUpdate p uid ship now, by rw [hck]⟩
    · intro _ _
      exact ⟨l1, l2, hdb, hl1, hck, rfl, rfl, rfl, rfl, rfl⟩
    · intro hc; exact absurd ⟨hs, ha⟩ hc
  · have hfail : (p.status = .sold ∨ ¬ p.isActive) ∨ p.status ≠ .approved := by
      by_cases hs : p.status = .approved
      · refine Or.inl (Or.inr ?_)
        intro ha
        exact hok ⟨hs, by simpa using ha⟩
      · exact Or.inr hs
    have hck : (checkout db pid uid ship pay now).1 = db ∧
        ((checkout db pid uid ship pay now).2 = Resp.err 400 notAvailableMsg ∨
         (checkout db pid uid ship pay now).2 =
           Resp.err 400 notPurchasableMsg) := by
      simp only [checkout, hfind]
      by_cases h1 : p.status = .sold ∨ ¬ p.isActive
      · rw [if_pos h1]; exact ⟨rfl, Or.inl rfl⟩
      · rw [if_neg h1]
        have h2 : p.status ≠ .approved := by
          rcases hfail with h | h
          · exact absurd h h1
          · exact h
        rw [if_pos h2]
        exact ⟨rfl, Or.inr rfl⟩
    refine ⟨?_, fun hs ha => absurd ⟨hs, ha⟩ hok, fun _ => hck⟩
    constructor
    · rintro ⟨q, hq⟩
      rcases hck.2 with h | h <;> rw [hq] at h <;> exact absurd h (by simp)
    · intro h; exact absurd h hok

/-- C1 witness: a concrete checkout on an approved, active product. -/
theorem checkout_conditional_update_witness :
    findById [sampleProduct] 1 = some sampleProduct ∧
    validPayment samplePay = true ∧
    ((∃ q, (checkout [sampleProduct] 1 9 none samplePay 99).2 = Resp.ok q) ↔
      (sampleProduct.status = .approved ∧ sampleProduct.isActive = true)) := by
  refine ⟨by decide, by decide, ?_⟩
  exact (checkout_conditional_update [sampleProduct] 1 9 none samplePay 99
    sampleProduct (by decide) (by decide)).1

/-- The newest-first sort is a permutation of its input. -/
theorem newestFirst_perm (ps : List Product) :
    List.Perm (newestFirst ps) ps :=
  List.perm_insertionSort _ ps

/-- The newest-first sort is sorted by descending creation time. -/
theorem newestFirst_sorted (ps : List Product) :
    (newestFirst ps).Sorted (fun a b => b.createdAt ≤ a.createdAt) := by
  haveI : IsTotal Product (fun a b => b.createdAt ≤ a.createdAt) :=
    ⟨fun a b => Nat.le_total b.createdAt a.createdAt⟩
  haveI : IsTrans Product (fun a b => b.createdAt ≤ a.createdAt) :=
    ⟨fun _ _ _ hab hbc => le_trans hbc hab⟩
  exact List.sorted_insertionSort _ ps

/-- C4: the public listing returns exactly the approved, active products
with no recorded sold timestamp, as a newest-first (descending creation
time) ordering of that subset, and never contains a product with status
sold or with the active flag cleared. -/
theorem publicListing_spec (db : List Product) :
    List.Perm (publicListing db) (db.filter publicMatch) ∧
    (∀ p : Product, p ∈ publicListing db ↔
      (p ∈ db ∧ p.status = .approved ∧ p.isActive = true ∧
        p.soldAt = none)) ∧
    (publicListing db).Sorted (fun a b => b.createdAt ≤ a.createdAt) ∧
    (∀ p ∈ publicListing db, p.status ≠ .sold ∧ p.isActive = true) := by
  have hiff : ∀ p : Product, p ∈ publicListing db ↔
      (p ∈ db ∧ p.status = .approved ∧ p.isActive = true ∧
        p.soldAt = none) := by
    intro p
    unfold publicListing
    rw [(newestFirst_perm _).mem_iff, List.mem_filter]
    simp [publicMatch]
  refine ⟨newestFirst_perm _, hiff, newestFirst_sorted _, ?_⟩
  intro p hp
  obtain ⟨_, hs, ha, _⟩ := (hiff p).mp hp
  exact ⟨by simp [hs], ha⟩

/-- C4 witness: an approved active product is listed, a sold one is not. -/
theorem publicListing_spec_witness :
    sampleProduct ∈ publicListing [sampleSold, sampleProduct] ∧
    sampleSold ∉ publicListing [sampleSold, sampleProduct] := by
  constructor
  · exact ((publicListing_spec [sampleSold, sampleProduct]).2.1
      sampleProduct).mpr (by decide)
  · intro h
    have hm := ((publicListing_spec [sampleSold, sampleProduct]).2.1
      sampleSold).mp h
    exact absurd hm.2.1 (by decide)

/-- C5 counterexample: no store whatsoever — reachable or not — puts a
product whose status is `sold` into the authenticated listing, because its
filter requires `status: 'approved'` just like the public one. -/
theorem sold_status_never_authListed :
    ¬ ∃ (db : List Product) (p : Product),
      p.status = .sold ∧ p ∈ authListing db := by
  rintro ⟨db, p, hs, hm⟩
  rw [authListing, (newestFirst_perm _).mem_iff, List.mem_filter] at hm
  have := hm.2
  simp [authMatch, hs] at this

/-- C5 (amended): the authenticated listing filter is the public one minus
only the sold-timestamp exclusion; a product with a recorded `soldAt` can
re-enter the authenticated listing after an admin resets its status to
approved and it is re-activated, while the public listing still excludes
it. -/
theorem authListing_asymmetry :
    (∀ p : Product, authMatch p = true ↔
      (p.status = .approved ∧ p.isActive = true)) ∧
    (∀ p : Product, publicMatch p = true ↔
      (authMatch p = true ∧ p.soldAt = none)) ∧
    createProduct [] 7 sampleBody ["/uploads/a.png"] 10 1 =
      ([createdSample], Resp.ok createdSample) ∧
    ((runOps createdSample resellTrace).soldAt ≠ none ∧
      runOps createdSample resellTrace ∈
        authListing [runOps createdSample resellTrace] ∧
      runOps createdSample resellTrace ∉
        publicListing [runOps createdSample resellTrace]) := by
  refine ⟨?_, ?_, by decide, by decide⟩
  · intro p; simp [authMatch]
  · intro p
    simp only [publicMatch, authMatch]
    constructor
    · intro h
      simp only [decide_eq_true_eq] at h
      exact ⟨by simp [h.1, h.2.1], h.2.2⟩
    · rintro ⟨h1, h2⟩
      simp only [decide_eq_true_eq] at h1
      simp [h1.1, h1.2, h2]

/-- C5 witness for the amended claim: a listed product is approved and
active. -/
theorem authListing_asymmetry_witness :
    authMatch sampleProduct = true ∧
    (sampleProduct.status = .approved ∧ sampleProduct.isActive = true) :=
  ⟨by decide, (authListing_asymmetry.1 sampleProduct).mp (by decide)⟩

/-- A purchase request changes the product exactly when it is approved,
active and the payment body is complete, and then it applies the sell
update. -/
theorem stepOp_buy (p : Product) (uid : Nat) (ship : Option Address)
    (pay : Option PaymentInfo) (now : Nat) :
    stepOp p (.buy uid ship pay now) =
      if p.status = .approved ∧ p.isActive = true ∧ validPayment pay = true
      then sellUpdate p uid ship now else p := by
  have hfind : findById [p] p.id = some p :=
    List.find?_cons_of_pos _ (by simp)
  cases hs : p.status <;> cases ha : p.isActive <;>
    by_cases hp : validPayment pay = true <;>
      simp [stepOp, checkout, findOneAndUpdateSell, hfind, hs, ha, hp]

/-- A purchase request reports success exactly when the product is
approved, active and the payment body is complete. -/
theorem sellHappened_iff (p : Product) (uid : Nat) (ship : Option Address)
    (pay : Option PaymentInfo) (now : Nat) :
    sellHappened p (.buy uid ship pay now) = true ↔
      (p.status = .approved ∧ p.isActive = true ∧
        validPayment pay = true) := by
  have hfind : findById [p] p.id = some p :=
    List.find?_cons_of_pos _ (by simp)
  cases hs : p.status <;> cases ha : p.isActive <;>
    by_cases hp : validPayment pay = true <;>
      simp [sellHappened, checkout, findOneAndUpdateSell, hfind, hs, ha, hp]

/-- Only purchase requests report sales. -/
theorem sellHappened_of_not_buy (p : Product) (op : Op)
    (h : ∀ uid ship pay now, op ≠ .buy uid ship pay now) :
    sellHappened p op = false := by
  cases op with
  | buy uid ship pay now => exact absurd rfl (h uid ship pay now)
  | adminSetStatus s => rfl
  | toggle uid a => rfl
  | updateFields uid a body => rfl

/-- A request that reports a sale was a purchase of an approved, active
product with complete payment, and it leaves the product sold. -/
theorem stepOp_status_after_sell (p : Product) (op : Op)
    (h : sellHappened p op = true) :
    p.status = .approved ∧ p.isActive = true ∧
      (stepOp p op).status = .sold := by
  cases op with
  | adminSetStatus s => exact absurd h (by simp [sellHappened])
  | toggle uid a => exact absurd h (by simp [sellHappened])
  | updateFields uid a body => exact absurd h (by simp [sellHappened])
  | buy uid ship pay now =>
    obtain ⟨hs, ha, hp⟩ := (sellHappened_iff p uid ship pay now).mp h
    refine ⟨hs, ha, ?_⟩
    rw [stepOp_buy, if_pos ⟨hs, ha, hp⟩]
    rfl

/-- Once sold, only an admin status update changes the status. -/
theorem stepOp_sold_stuck (p : Product) (op : Op) (hs : p.status = .sold)
    (hop : isAdminSet op = false) : (stepOp p op).status = .sold := by
  cases op with
  | adminSetStatus s => exact absurd hop (by simp [isAdminSet])
  | toggle uid a =>
    simp only [stepOp, toggleActive]
    split_ifs <;> simpa using hs
  | updateFields uid a body =>
    simp only [stepOp, updateProduct]
    split_ifs <;> simpa using hs
  | buy uid ship pay now =>
    rw [stepOp_buy, if_neg (by simp [hs])]
    exact hs

/-- A sold product on which no admin status update is performed is never
sold again. -/
theorem countSells_sold (t : List Op) (p : Product) (hs : p.status = .sold)
    (hnr : noAdminResell p t = true) : countSells p t = 0 := by
  induction t generalizing p with
  | nil => rfl
  | cons op t ih =>
    have h1 : (¬ p.status = .sold ∨ isAdminSet op = false) ∧
        noAdminResell (stepOp p op) t = true := by
      simpa [noAdminResell] using hnr
    have hop : isAdminSet op = false := by
      rcases h1.1 with h | h
      · exact absurd hs h
      · exact h
    have hsell : sellHappened p op = false := by
      rcases Bool.eq_false_or_eq_true (sellHappened p op) with h | h
      · obtain ⟨ha, _, _⟩ := stepOp_status_after_sell p op h
        rw [hs] at ha
        exact absurd ha (by simp)
      · exact h
    have hs' : (stepOp p op).status = .sold := stepOp_sold_stuck p op hs hop
    simp [countSells, hsell, ih (stepOp p op) hs' h1.2]

/-- C2 counterexample: from a freshly created product, the trace
approve, checkout, admin re-approve, re-activate, checkout yields two
completed sales, and the third step moves the status out of `sold` back to
`approved`. -/
theorem sold_twice_counterexample :
    createProduct [] 7 sampleBody ["/uploads/a.png"] 10 1 =
      ([createdSample], Resp.ok createdSample) ∧
    countSells createdSample doubleSellTrace = 2 ∧
    (runOps createdSample (resellTrace.take 2)).status = .sold ∧
    (runOps createdSample (resellTrace.take 3)).status = .approved := by
  decide

/-- C2 (amended): the status never returns to `pending` once it has left
it; a sale happens only on an approved, active product and leaves it
`sold`; the only request that moves a sold product's status is an admin
status update; and along any trace in which no admin status update is
applied to a sold product, the product is sold at most once.  (The admin
moderation route checks no current status, so an admin reset followed by
re-activation does allow a second sale, as the counterexample shows.) -/
theorem status_lifecycle (p : Product) (op : Op) (t : List Op) :
    ((stepOp p op).status = .pending → p.status = .pending) ∧
    (sellHappened p op = true →
      p.status = .approved ∧ p.isActive = true ∧
        (stepOp p op).status = .sold) ∧
    (p.status = .sold → isAdminSet op = false →
      (stepOp p op).status = .sold) ∧
    (noAdminResell p t = true → countSells p t ≤ 1) := by
  refine ⟨?_, stepOp_status_after_sell p op, stepOp_sold_stuck p op, ?_⟩
  · intro h
    cases op with
    | adminSetStatus s =>
      simp only [stepOp, setStatus] at h
      split_ifs at h with hcond
      · rcases hcond with hc | hc <;> rw [hc] at h <;> exact absurd h (by simp)
      · exact h
    | toggle uid a =>
      simp only [stepOp, toggleActive] at h
      split_ifs at h <;> exact h
    | updateFields uid a body =>
      simp only [stepOp, updateProduct] at h
      split_ifs at h <;> exact h
    | buy uid ship pay now =>
      rw [stepOp_buy] at h
      split_ifs at h with hcond
      · exact absurd h (by simp [sellUpdate])
      · exact h
  · intro hnr
    induction t generalizing p with
    | nil => simp [countSells]
    | cons op' t ih =>
      have h1 : (¬ p.status = .sold ∨ isAdminSet op' = false) ∧
          noAdminResell (stepOp p op') t = true := by
        simpa [noAdminResell] using hnr
      rcases Bool.eq_false_or_eq_true (sellHappened p op') with hsell | hsell
      · have hsold : (stepOp p op').status = .sold :=
          (stepOp_status_after_sell p op' hsell).2.2
        have hzero : countSells (stepOp p op') t = 0 :=
          countSells_sold t (stepOp p op') hsold h1.2
        simp [countSells, hsell, hzero]
      · have hle := ih (stepOp p op') h1.2
        simpa [countSells, hsell] using hle

/-- C2 witness: concrete instances of each clause of the lifecycle
theorem. -/
theorem status_lifecycle_witness :
    createdSample.status = .pending ∧
    (sampleProduct.status = .approved ∧ sampleProduct.isActive = true ∧
      (stepOp sampleProduct (.buy 9 none samplePay 99)).status = .sold) ∧
    (stepOp sampleSold (.toggle 7 true)).status = .sold ∧
    countSells createdSample [.adminSetStatus .approved,
      .buy 9 none samplePay 99, .toggle 7 true] ≤ 1 := by
  refine ⟨?_, ?_, ?_, ?_⟩
  · exact (status_lifecycle createdSample (.toggle 7 true) []).1 (by decide)
  · exact (status_lifecycle sampleProduct (.buy 9 none samplePay 99) []).2.1
      (by decide)
  · exact (status_lifecycle sampleSold (.toggle 7 true) []).2.2.1
      (by decide) (by decide)
  · exact (status_lifecycle createdSample (.toggle 7 true)
      [.adminSetStatus .approved, .buy 9 none samplePay 99,
        .toggle 7 true]).2.2.2 (by decide)

/-- Pre-checks on an available product with complete payment pass. -/
theorem procStep_start_avail (shared : Product) (a : Attempt)
    (hs : shared.status = .approved) (hact : shared.isActive = true)
    (hp : validPayment a.pay = true) :
    procStep shared a .start = (shared, .passed) := by
  simp [procStep, hs, hact, hp]

/-- The conditional update on an available product succeeds and marks it
sold and inactive. -/
theorem procStep_passed_avail (shared : Product) (a : Attempt)
    (hs : shared.status = .approved) (hact : shared.isActive = true) :
    procStep shared a .passed =
      (sellUpdate shared a.uid a.ship a.now, .finished .success) := by
  simp [procStep, hs, hact]

/-- Against a sold product, an unfinished or already-rejected attempt ends
with the not-available error and leaves the product alone. -/
theorem procStep_sold_na (shared : Product) (a : Attempt) (st : PState)
    (hs : shared.status = .sold) (hlive : liveOrNA st) :
    procStep shared a st =
      (shared, .finished (.errResp 400 notAvailableMsg)) := by
  rcases hlive with h | h | h <;> subst h <;> simp [procStep, hs]

/-- One scheduler step preserves the two-checkout invariant. -/
theorem schedStep_inv (a b : Attempt) (ha : validPayment a.pay = true)
    (hb : validPayment b.pay = true) (s : Sys) (who : Bool)
    (hinv : SysInv s) : SysInv (schedStep a b s who) := by
  obtain ⟨sh, spa, spb⟩ := s
  have hlive : ∀ st : PState, (st = .start ∨ st = .passed) → liveOrNA st := by
    rintro st (h | h)
    · exact Or.inl h
    · exact Or.inr (Or.inl h)
  rcases hinv with ⟨⟨hst, hact⟩, hpa, hpb⟩ | ⟨hst, hact, hcase⟩
  · simp only at hst hact hpa hpb
    cases who
    · rcases hpb with h | h <;> subst h
      · have hps := procStep_start_avail sh b hst hact hb
        simp [schedStep, hps]
        exact Or.inl ⟨⟨hst, hact⟩, hpa, Or.inr rfl⟩
      · have hps := procStep_passed_avail sh b hst hact
        simp [schedStep, hps]
        exact Or.inr ⟨rfl, rfl, Or.inr ⟨rfl, hlive spa hpa⟩⟩
    · rcases hpa with h | h <;> subst h
      · have hps := procStep_start_avail sh a hst hact ha
        simp [schedStep, hps]
        exact Or.inl ⟨⟨hst, hact⟩, Or.inr rfl, hpb⟩
      · have hps := procStep_passed_avail sh a hst hact
        simp [schedStep, hps]
        exact Or.inr ⟨rfl, rfl, Or.inl ⟨rfl, hlive spb hpb⟩⟩
  · simp only at hst hact hcase
    cases who
    · rcases hcase with ⟨hsucc, hother⟩ | ⟨hsucc, hother⟩
      · have hps := procStep_sold_na sh b spb hst hother
        simp [schedStep, hps]
        exact Or.inr ⟨hst, hact, Or.inl ⟨hsucc, Or.inr (Or.inr rfl)⟩⟩
      · subst hsucc
        simp [schedStep, procStep]
        exact Or.inr ⟨hst, hact, Or.inr ⟨rfl, hother⟩⟩
    · rcases hcase with ⟨hsucc, hother⟩ | ⟨hsucc, hother⟩
      · subst hsucc
        simp [schedStep, procStep]
        exact Or.inr ⟨hst, hact, Or.inl ⟨rfl, hother⟩⟩
      · have hps := procStep_sold_na sh a spa hst hother
        simp [schedStep, hps]
        exact Or.inr ⟨hst, hact, Or.inr ⟨hsucc, Or.inr (Or.inr rfl)⟩⟩

/-- Any interleaving preserves the two-checkout invariant. -/
theorem runSched_inv (a b : Attempt) (ha : validPayment a.pay = true)
    (hb : validPayment b.pay = true) (sched : List Bool) (s : Sys)
    (hinv : SysInv s) : SysInv (runSched a b s sched) := by
  induction sched generalizing s with
  | nil => exact hinv
  | cons who sched ih =>
    exact ih (schedStep a b s who) (schedStep_inv a b ha hb s who hinv)

/-- C3: under every interleaving of two checkout attempts with complete
payment info on an approved, active product, at most one attempt succeeds;
and whenever both attempts have finished, exactly one of them succeeded
and the other received the 400 not-available error. -/
theorem concurrent_checkout_exclusive (a b : Attempt) (p : Product)
    (sched : List Bool) (ha : validPayment a.pay = true)
    (hb : validPayment b.pay = true) (hs : p.status = .approved)
    (hact : p.isActive = true) :
    succCount (runSched a b ⟨p, .start, .start⟩ sched) ≤ 1 ∧
    ((∃ ra, (runSched a b ⟨p, .start, .start⟩ sched).pa = .finished ra) →
     (∃ rb, (runSched a b ⟨p, .start, .start⟩ sched).pb = .finished rb) →
      ((runSched a b ⟨p, .start, .start⟩ sched).pa = .finished .success ∧
        (runSched a b ⟨p, .start, .start⟩ sched).pb =
          .finished (.errResp 400 notAvailableMsg)) ∨
      ((runSched a b ⟨p, .start, .start⟩ sched).pb = .finished .success ∧
        (runSched a b ⟨p, .start, .start⟩ sched).pa =
          .finished (.errResp 400 notAvailableMsg))) := by
  have hinv : SysInv (runSched a b ⟨p, .start, .start⟩ sched) :=
    runSched_inv a b ha hb sched ⟨p, .start, .start⟩
      (Or.inl ⟨⟨hs, hact⟩, Or.inl rfl, Or.inl rfl⟩)
  set final := runSched a b ⟨p, .start, .start⟩ sched with hfinal
  constructor
  · rcases hinv with ⟨_, hpa, hpb⟩ | ⟨_, _, hcase⟩
    · have h1 : final.pa ≠ .finished .success := by
        rcases hpa with h | h <;> rw [h] <;> simp
      have h2 : final.pb ≠ .finished .success := by
        rcases hpb with h | h <;> rw [h] <;> simp
      simp [succCount, h1, h2]
    · rcases hcase with ⟨hsucc, hother⟩ | ⟨hsucc, hother⟩
      · have h2 : final.pb ≠ .finished .success := by
          rcases hother with h | h | h <;> rw [h] <;> simp
        simp [succCount, hsucc, h2]
      · have h1 : final.pa ≠ .finished .success := by
          rcases hother with h | h | h <;> rw [h] <;> simp
        simp [succCount, hsucc, h1]
  · rintro ⟨ra, hra⟩ ⟨rb, hrb⟩
    rcases hinv with ⟨_, hpa, hpb⟩ | ⟨_, _, hcase⟩
    · rcases hpa with h | h <;> rw [h] at hra <;> exact absurd hra (by simp)
    · rcases hcase with ⟨hsucc, hother⟩ | ⟨hsucc, hother⟩
      · refine Or.inl ⟨hsucc, ?_⟩
        rcases hother with h | h | h
        · rw [h] at hrb; exact absurd hrb (by simp)
        · rw [h] at hrb; exact absurd hrb (by simp)
        · exact h
      · refine Or.inr ⟨hsucc, ?_⟩
        rcases hother with h | h | h
        · rw [h] at hra; exact absurd hra (by simp)
        · rw [h] at hra; exact absurd hra (by simp)
        · exact h

/-- C3 witness: a concrete interleaving of two attempts on a concrete
available product. -/
theorem concurrent_checkout_exclusive_witness :
    validPayment samplePay = true ∧
    succCount (runSched ⟨9, none, samplePay, 50⟩ ⟨10, none, samplePay, 51⟩
      ⟨sampleProduct, .start, .start⟩ [true, false, true, false]) ≤ 1 :=
  ⟨by decide,
    (concurrent_checkout_exclusive ⟨9, none, samplePay, 50⟩
      ⟨10, none, samplePay, 51⟩ sampleProduct [true, false, true, false]
      (by decide) (by decide) (by decide) (by decide)).1⟩

/-- Incrementing rewrites exactly the first line item for the product. -/
theorem incFirst_append (pre post : List CartItem) (it : CartItem)
    (pid : Nat) (hpre : ∀ jt ∈ pre, jt.product ≠ pid)
    (hit : it.product = pid) :
    incFirst pid (pre ++ it :: post) =
      pre ++ { it with quantity := it.quantity + 1 } :: post := by
  induction pre with
  | nil => simp [incFirst, hit]
  | cons hd tl ih =>
    have h1 : hd.product ≠ pid := hpre hd (by simp)
    simp [incFirst, h1, ih (fun jt hj => hpre jt (by simp [hj]))]

/-- `find` returns the first line item for the product. -/
theorem cart_find_append (pre post : List CartItem) (it : CartItem)
    (pid : Nat) (hpre : ∀ jt ∈ pre, jt.product ≠ pid)
    (hit : it.product = pid) :
    (pre ++ it :: post).find? (fun jt => jt.product = pid) = some it := by
  induction pre with
  | nil => exact List.find?_cons_of_pos _ (by simp [hit])
  | cons hd tl ih =>
    have h1 : hd.product ≠ pid := hpre hd (by simp)
    rw [List.cons_append, List.find?_cons_of_neg _ (by simp [h1])]
    exact ih (fun jt hj => hpre jt (by simp [hj]))

/-- C6: the cart add operation inserts a fresh line item with quantity 1
when the product is not in the cart, increments the quantity of the
(first) existing line item for the product by 1 when it is, and hence
adding the same product twice to a cart that lacked it yields a single
line item of quantity 2. -/
theorem addToCart_spec (items : List CartItem) (pid : Nat) :
    (items.find? (fun it => it.product = pid) = none →
      addToCart items pid = items ++ [newCartItem pid]) ∧
    (∀ pre it post, items = pre ++ it :: post →
      (∀ jt ∈ pre, jt.product ≠ pid) → it.product = pid →
      addToCart items pid =
        pre ++ { it with quantity := it.quantity + 1 } :: post) ∧
    (items.find? (fun it => it.product = pid) = none →
      addToCart (addToCart items pid) pid =
        items ++ [{ product := pid, quantity := 2 }]) := by
  have habsent : items.find? (fun it => it.product = pid) = none →
      addToCart items pid = items ++ [newCartItem pid] := by
    intro h
    simp [addToCart, h]
  refine ⟨habsent, ?_, ?_⟩
  · rintro pre it post rfl hpre hit
    rw [addToCart, cart_find_append pre post it pid hpre hit]
    exact incFirst_append pre post it pid hpre hit
  · intro h
    rw [habsent h]
    have hpre : ∀ jt ∈ items, jt.product ≠ pid := by
      intro jt hj
      have := List.find?_eq_none.mp h jt hj
      simpa using this
    rw [addToCart, cart_find_append items [] (newCartItem pid) pid hpre rfl]
    rw [incFirst_append items [] (newCartItem pid) pid hpre rfl]
    rfl

/-- C6 witness: adding the same product twice to an empty cart. -/
theorem addToCart_spec_witness :
    addToCart (addToCart [] 5) 5 = [{ product := 5, quantity := 2 }] := by
  simpa using (addToCart_spec [] 5).2.2 rfl

/-- A category that passes validation is persisted (after trimming and the
`other` default) as a member of the fixed enum. -/
theorem trimOr_category_mem (o : Option String)
    (h : invalidCategory o = false) :
    trimOr "other" o ∈ validCategories := by
  cases o with
  | none => decide
  | some c =>
    have h2 : ¬ c = "" → c ∈ validCategories := by
      simpa [invalidCategory] using h
    by_cases hc : c = ""
    · subst hc; decide
    · have h3 := h2 hc
      simp [validCategories] at h3
      rcases h3 with h3 | h3 | h3 | h3 | h3 <;> subst h3 <;> decide

/-- C7: creation succeeds iff the name is present and non-blank, the price
parses to a positive number, the contact number is present and non-blank,
any supplied category is valid (empty counts as unsupplied and defaults to
`other`), and at least one image was uploaded; on success exactly the new
product is appended, with status `pending`, the active flag set and a
category from the fixed enum; on any failure nothing is persisted and the
response is a 400 error. -/
theorem createProduct_spec (db : List Product) (uid : Nat)
    (body : ProductBody) (files : List String) (now newId : Nat) :
    ((∃ p, (createProduct db uid body files now newId).2 = Resp.ok p) ↔
      ((∃ s, body.name = some s ∧ jsTrim s ≠ "") ∧
       (∃ q, body.price = some q ∧ 0 < q) ∧
       (∃ s, body.contactNumber = some s ∧ jsTrim s ≠ "") ∧
       (∀ c, body.category = some c → (c = "" ∨ c ∈ validCategories)) ∧
       files ≠ [])) ∧
    (∀ p, (createProduct db uid body files now newId).2 = Resp.ok p →
      ((createProduct db uid body files now newId).1 = db ++ [p] ∧
        p.status = .pending ∧ p.isActive = true ∧
        p.category ∈ validCategories ∧ p.seller = uid ∧
        p.images = files)) ∧
    ((∀ p, (createProduct db uid body files now newId).2 ≠ Resp.ok p) →
      ((createProduct db uid body files now newId).1 = db ∧
        ∃ msg, (createProduct db uid body files now newId).2 =
          Resp.err 400 msg)) := by
  have ename : ∀ o : Option String,
      blankOpt o = false ↔ (∃ s, o = some s ∧ jsTrim s ≠ "") := by
    intro o; cases o <;> simp [blankOpt]
  have eprice : invalidPrice body.price = false ↔
      (∃ q, body.price = some q ∧ 0 < q) := by
    cases body.price <;> simp [invalidPrice, not_le]
  have ecat : invalidCategory body.category = false ↔
      (∀ c, body.category = some c → (c = "" ∨ c ∈ validCategories)) := by
    cases body.category <;> simp [invalidCategory, or_iff_not_imp_left]
  have efiles : files.isEmpty = false ↔ files ≠ [] := by
    cases files <;> simp
  by_cases hall : blankOpt body.name = false ∧
      invalidPrice body.price = false ∧
      blankOpt body.contactNumber = false ∧
      invalidCategory body.category = false ∧ files.isEmpty = false
  · obtain ⟨h1, h2, h3, h4, h5⟩ := hall
    have hred : createProduct db uid body files now newId =
        (db ++ [{ id := newId
                  name := jsTrim (body.name.getD "")
                  price := body.price.getD 0
                  description := trimOr "" body.description
                  category := trimOr "other" body.category
                  size := trimOr "" body.size
                  color := trimOr "" body.color
                  location := trimOr "" body.location
                  contactNumber := jsTrim (body.contactNumber.getD "")
                  images := files
                  status := .pending
                  isActive := true
                  seller := uid
                  createdAt := now }],
          Resp.ok { id := newId
                    name := jsTrim (body.name.getD "")
                    price := body.price.getD 0
                    description := trimOr "" body.description
                    category := trimOr "other" body.category
                    size := trimOr "" body.size
                    color := trimOr "" body.color
                    location := trimOr "" body.location
                    contactNumber := jsTrim (body.contactNumber.getD "")
                    images := files
                    status := .pending
                    isActive := true
                    seller := uid
                    createdAt := now }) := by
      simp [createProduct, h1, h2, h3, h4, h5]
    refine ⟨?_, ?_, ?_⟩
    · constructor
      · intro _
        exact ⟨(ename body.name).mp h1, eprice.mp h2,
          (ename body.contactNumber).mp h3, ecat.mp h4, efiles.mp h5⟩
      · intro _
        exact ⟨_, by rw [hred]⟩
    · intro p hp
      rw [hred] at hp
      have hpe := Resp.ok.inj hp
      subst hpe
      rw [hred]
      exact ⟨rfl, rfl, rfl, trimOr_category_mem body.category h4, rfl, rfl⟩
    · intro hno
      exact absurd (by rw [hred]) (hno _)
  · have hred : ∃ msg, createProduct db uid body files now newId =
        (db, Resp.err 400 msg) := by
      by_cases h1 : blankOpt body.name = true
      · exact ⟨"Product name is required", by simp [createProduct, h1]⟩
      by_cases h2 : invalidPrice body.price = true
      · exact ⟨"Please enter a valid price", by simp [createProduct, h1, h2]⟩
      by_cases h3 : blankOpt body.contactNumber = true
      · exact ⟨"Contact number is required",
          by simp [createProduct, h1, h2, h3]⟩
      by_cases h4 : invalidCategory body.category = true
      · exact ⟨"Invalid category", by simp [createProduct, h1, h2, h3, h4]⟩
      by_cases h5 : files.isEmpty = true
      · exact ⟨"At least one image is required",
          by simp [createProduct, h1, h2, h3, h4, h5]⟩
      exact absurd ⟨by simpa using h1, by simpa using h2, by simpa using h3,
        by simpa using h4, by simpa using h5⟩ hall
    obtain ⟨msg, hred⟩ := hred
    refine ⟨?_, ?_, ?_⟩
    · constructor
      · rintro ⟨p, hp⟩
        rw [hred] at hp
        exact absurd hp (by simp)
      · rintro ⟨hn, hq, hc, hcat, hf⟩
        exact absurd ⟨(ename body.name).mpr hn, eprice.mpr hq,
          (ename body.contactNumber).mpr hc, ecat.mpr hcat,
          efiles.mpr hf⟩ hall
    · intro p hp
      rw [hred] at hp
      exact absurd hp (by simp)
    · intro _
      rw [hred]
      exact ⟨rfl, msg, rfl⟩

/-- C7 witness: a concrete valid creation request persists a pending
product. -/
theorem createProduct_spec_witness :
    (createProduct [] 7 sampleBody ["/uploads/a.png"] 10 1).1 =
      [] ++ [createdSample] ∧
    createdSample.status = .pending ∧ createdSample.isActive = true ∧
    createdSample.category ∈ validCategories := by
  have h := (createProduct_spec [] 7 sampleBody
    ["/uploads/a.png"] 10 1).2.1 createdSample (by decide)
  exact ⟨h.1, h.2.1, h.2.2.1, h.2.2.2.1⟩

/-- C8: login with the wrong password for an existing user and login with
an unknown email return the identical 400 response with the same generic
message, so the responses carry no user-enumeration signal; and
registration under an email that already has a user is rejected and
persists nothing. -/
theorem login_no_enumeration (db : List User)
    (cmp : String → String → Bool) (hash : String → String)
    (e1 pw1 : String) (u : User) (e2 pw2 : String)
    (rname e3 pw3 : String) (nid : Nat) (u3 : User)
    (h1 : findUserByEmail db e1 = some u)
    (hcmp : cmp pw1 u.password = false)
    (h2 : findUserByEmail db e2 = none)
    (h3 : findUserByEmail db e3 = some u3) :
    login db cmp e1 pw1 = AuthResp.err 400 "Invalid credentials" ∧
    login db cmp e2 pw2 = AuthResp.err 400 "Invalid credentials" ∧
    login db cmp e1 pw1 = login db cmp e2 pw2 ∧
    register db hash rname e3 pw3 nid =
      (db, AuthResp.err 400 "User already exists") := by
  have ha : login db cmp e1 pw1 = AuthResp.err 400 "Invalid credentials" := by
    simp [login, h1, hcmp]
  have hbb : login db cmp e2 pw2 = AuthResp.err 400 "Invalid credentials" := by
    simp [login, h2]
  refine ⟨ha, hbb, by rw [ha, hbb], ?_⟩
  simp [register, h3]

/-- C8 witness: wrong password and unknown email on a concrete store. -/
theorem login_no_enumeration_witness :
    login [sampleUser] (fun a b => a == b) "ada@example.com" "wrong" =
      login [sampleUser] (fun a b => a == b) "nobody@example.com" "x" ∧
    register [sampleUser] (fun s => s) "Bob" "ada@example.com" "pw" 4 =
      ([sampleUser], AuthResp.err 400 "User already exists") := by
  have h := login_no_enumeration [sampleUser] (fun a b => a == b)
    (fun s => s) "ada@example.com" "wrong" sampleUser "nobody@example.com"
    "x" "Bob" "ada@example.com" "pw" 4 sampleUser
    (by decide) (by decide) (by decide) (by decide)
  exact ⟨h.2.2.1, h.2.2.2⟩

/-- C9: a successful product update via PUT `/products/:id` returns the
stored product; it overwrites exactly the eight editable fields (name,
price, description, category, size, color, location, contact number) with
the validated request data and leaves status, the active flag, the images,
seller, buyer, the sold timestamp, the shipping address, the id and the
creation time unchanged. -/
theorem updateProduct_frame (p : Product) (uid : Nat) (isAdmin : Bool)
    (body : ProductBody) (r : Product)
    (h : (updateProduct p uid isAdmin body).2 = Resp.ok r) :
    (updateProduct p uid isAdmin body).1 = r ∧
    r.status = p.status ∧ r.isActive = p.isActive ∧
    r.images = p.images ∧ r.seller = p.seller ∧ r.buyer = p.buyer ∧
    r.soldAt = p.soldAt ∧ r.shippingAddress = p.shippingAddress ∧
    r.id = p.id ∧ r.createdAt = p.createdAt ∧
    r.name = jsTrim (body.name.getD "") ∧
    r.price = body.price.getD 0 ∧
    r.description = trimOr "" body.description ∧
    r.category = trimOr "other" body.category ∧
    r.size = trimOr "" body.size ∧ r.color = trimOr "" body.color ∧
    r.location = trimOr "" body.location ∧
    r.contactNumber = jsTrim (body.contactNumber.getD "") := by
  simp only [updateProduct] at h ⊢
  split_ifs at h ⊢ <;> simp at h
  subst h
  exact ⟨rfl, rfl, rfl, rfl, rfl, rfl, rfl, rfl, rfl, rfl, rfl, rfl, rfl,
    rfl, rfl, rfl, rfl, rfl⟩

/-- C9 witness: updating a concrete sold product changes the editable
fields and preserves its status, buyer and sold timestamp. -/
theorem updateProduct_frame_witness :
    ((updateProduct sampleSold 7 false updBody).1).status =
      sampleSold.status ∧
    ((updateProduct sampleSold 7 false updBody).1).soldAt =
      sampleSold.soldAt ∧
    ((updateProduct sampleSold 7 false updBody).1).name = "new boots" := by
  have h := updateProduct_frame sampleSold 7 false updBody
    ((updateProduct sampleSold 7 false updBody).1) (by decide)
  refine ⟨h.2.1, h.2.2.2.2.2.2.1, ?_⟩
  rw [h.2.2.2.2.2.2.2.2.2.2.1]
  decide

/-- C10: the single-product endpoint applies no status or active-flag
filter and its handler receives no caller identity (the route mounts no
auth middleware): whatever product the id lookup finds — pending,
rejected, sold or inactive alike — is returned whole to any caller. -/
theorem getProductById_no_filter (db : List Product) (pid : Nat)
    (p : Product) (hfind : findById db pid = some p) :
    getProductById db pid = Resp.ok p := by
  simp [getProductById, hfind]

/-- C10 witness: a sold, inactive product is returned in full. -/
theorem getProductById_no_filter_witness :
    getProductById [sampleSold] 2 = Resp.ok sampleSold ∧
    sampleSold.status = .sold ∧ sampleSold.isActive = false :=
  ⟨getProductById_no_filter [sampleSold] 2 sampleSold (by decide),
    by decide, by decide⟩

end Marketplace
